import Mathlib

/-
Shallow embedding of the devtodo core (src/todo.rs, src/account.rs,
src/account/github.rs, src/account/github/client.rs, src/account/gitlab.rs).

Modelling conventions:
- chrono timestamps are embedded as records of Nat fields; formatting and
  parsing with the fixed patterns "%Y%m%dT%H%M%SZ" and "%Y%m%d" are embedded
  as digit-level string codecs over those records.
- vobject components are embedded as a name plus an association list of
  properties; `Component::set` replaces all properties of a name and
  `get_only` returns the value of the property when present (the encoder
  keeps property names unique, matching vobject's get_only contract).
- Side effects (sleeping, logging, filesystem writes, network sends) are
  embedded as explicit data: counts of emissions, lists of slept durations,
  and outcome parameters supplied by the caller.
- Rust panics (unimplemented!, assert!, expect) are embedded as distinguished
  terminal outcomes, never as ordinary results.
-/

-- ### src/todo.rs: TodoStatus, TodoKind -------------------------------------

inductive TodoStatus where
  | needsAction
  | completed
  | inProcess
  | cancelled
deriving DecidableEq, Repr

/-- `impl AsRef<str> for TodoStatus` in src/todo.rs. -/
def TodoStatus.as_ref : TodoStatus → String
  | .needsAction => "NEEDS-ACTION"
  | .completed => "COMPLETED"
  | .inProcess => "IN-PROCESS"
  | .cancelled => "CANCELLED"

/-- The STATUS match arm of `TodoItem::from_component` in src/todo.rs. -/
def TodoStatus.from_str : String → Option TodoStatus
  | "NEEDS-ACTION" => some .needsAction
  | "COMPLETED" => some .completed
  | "IN-PROCESS" => some .inProcess
  | "CANCELLED" => some .cancelled
  | _ => none

inductive TodoKind where
  | issue
  | assignedIssue
  | pullRequest
  | assignedPullRequest
  | todo
deriving DecidableEq, Repr

/-- `TodoKind::category` in src/todo.rs. -/
def TodoKind.category : TodoKind → String
  | .issue => "issue"
  | .assignedIssue => "assigned-issue"
  | .pullRequest => "pull-request"
  | .assignedPullRequest => "assigned-pull-request"
  | .todo => "todo"

/-- `ALL_TODO_KINDS` in src/todo.rs, in source order. -/
def ALL_TODO_KINDS : List TodoKind :=
  [.issue, .assignedIssue, .pullRequest, .assignedPullRequest, .todo]

-- ### chrono dates and the DATE_FMT / DATE_TIME_FMT codecs -------------------

/-- A chrono `NaiveDate` (year, month, day). -/
structure DateC where
  y : Nat
  mo : Nat
  d : Nat
deriving DecidableEq, Repr

/-- A chrono `DateTime<Utc>` at second granularity, as formatted and parsed
by the fixed patterns in src/todo.rs. -/
structure TimeC where
  y : Nat
  mo : Nat
  d : Nat
  h : Nat
  mi : Nat
  s : Nat
deriving DecidableEq, Repr

def digitChar (n : Nat) : Char := Char.ofNat (48 + n)

/-- Two-digit zero-padded field, as chrono's `%m`/`%d`/`%H`/`%M`/`%S` emit. -/
def pad2 (n : Nat) : List Char := [digitChar (n / 10 % 10), digitChar (n % 10)]

/-- Four-digit zero-padded field, as chrono's `%Y` emits for 0 - 9999. -/
def pad4 (n : Nat) : List Char :=
  [digitChar (n / 1000 % 10), digitChar (n / 100 % 10),
   digitChar (n / 10 % 10), digitChar (n % 10)]

def digitVal (c : Char) : Option Nat :=
  if 48 ≤ c.toNat ∧ c.toNat ≤ 57 then some (c.toNat - 48) else none

def parse2 : List Char → Option (Nat × List Char)
  | a :: b :: rest =>
    match digitVal a, digitVal b with
    | some x, some y => some (10 * x + y, rest)
    | _, _ => none
  | _ => none

def parse4 : List Char → Option (Nat × List Char)
  | a :: b :: c :: d :: rest =>
    match digitVal a, digitVal b, digitVal c, digitVal d with
    | some w, some x, some y, some z => some (((w * 10 + x) * 10 + y) * 10 + z, rest)
    | _, _, _, _ => none
  | _ => none

def expectChar (c : Char) : List Char → Option (List Char)
  | x :: rest => if x = c then some rest else none
  | [] => none

/-- chrono formatting with `DATE_TIME_FMT` = "%Y%m%dT%H%M%SZ". -/
def formatTimeL (t : TimeC) : List Char :=
  pad4 t.y ++ (pad2 t.mo ++ (pad2 t.d ++
    ('T' :: (pad2 t.h ++ (pad2 t.mi ++ (pad2 t.s ++ ['Z']))))))

/-- chrono formatting with `DATE_FMT` = "%Y%m%d". -/
def formatDateL (d : DateC) : List Char := pad4 d.y ++ (pad2 d.mo ++ pad2 d.d)

def formatTime (t : TimeC) : String := ⟨formatTimeL t⟩

def formatDate (d : DateC) : String := ⟨formatDateL d⟩

/-- chrono `NaiveDateTime::parse_from_str(s, DATE_TIME_FMT)`: the full string
must match "%Y%m%dT%H%M%SZ" with nothing left over. -/
def parseTimeStr (cs : List Char) : Option TimeC := do
  let (y, cs) ← parse4 cs
  let (mo, cs) ← parse2 cs
  let (d, cs) ← parse2 cs
  let cs ← expectChar 'T' cs
  let (h, cs) ← parse2 cs
  let (mi, cs) ← parse2 cs
  let (s, cs) ← parse2 cs
  let cs ← expectChar 'Z' cs
  match cs with
  | [] => some ⟨y, mo, d, h, mi, s⟩
  | _ => none

/-- chrono `NaiveDate::parse_from_str(s, DATE_FMT)`: the full string must
match "%Y%m%d" with nothing left over. -/
def parseDateStr (cs : List Char) : Option DateC := do
  let (y, cs) ← parse4 cs
  let (mo, cs) ← parse2 cs
  let (d, cs) ← parse2 cs
  match cs with
  | [] => some ⟨y, mo, d⟩
  | _ => none

-- ### src/todo.rs: Due ------------------------------------------------------

inductive Due where
  | date (d : DateC)
  | dateTime (t : TimeC)
deriving DecidableEq, Repr

/-- `Due::from_str` in src/todo.rs: try the date-time pattern first, fall
back to the date pattern. -/
def Due.from_str (s : String) : Option Due :=
  match parseTimeStr s.data with
  | some dt => some (.dateTime dt)
  | none => (parseDateStr s.data).map .date

/-- `impl Display for Due` in src/todo.rs. -/
def Due.render : Due → String
  | .date d => formatDate d
  | .dateTime t => formatTime t

-- Bounds under which the fixed-width codec round-trips (satisfied by every
-- real chrono date/time, whose fields are far smaller).

def TimeC.Valid (t : TimeC) : Prop :=
  t.y < 10000 ∧ t.mo < 100 ∧ t.d < 100 ∧ t.h < 100 ∧ t.mi < 100 ∧ t.s < 100

def DateC.Valid (d : DateC) : Prop := d.y < 10000 ∧ d.mo < 100 ∧ d.d < 100

def Due.Valid : Due → Prop
  | .date d => d.Valid
  | .dateTime t => t.Valid

instance (t : TimeC) : Decidable t.Valid := by unfold TimeC.Valid; infer_instance
instance (d : DateC) : Decidable d.Valid := by unfold DateC.Valid; infer_instance
instance (d : Due) : Decidable d.Valid := by cases d <;> (unfold Due.Valid; infer_instance)

-- ### Digit codec round-trip lemmas -----------------------------------------

theorem digitVal_digitChar (k : Nat) (h : k < 10) : digitVal (digitChar k) = some k := by
  have hv : (Char.ofNat (48 + k)).toNat = 48 + k := by
    interval_cases k <;> decide
  simp only [digitVal, digitChar, hv]
  have h1 : 48 ≤ 48 + k := by omega
  have h2 : 48 + k ≤ 57 := by omega
  simp [h1, h2]

theorem parse2_pad2 (n : Nat) (h : n < 100) (rest : List Char) :
    parse2 (pad2 n ++ rest) = some (n, rest) := by
  have h1 : n / 10 % 10 < 10 := Nat.mod_lt _ (by omega)
  have h2 : n % 10 < 10 := Nat.mod_lt _ (by omega)
  simp only [pad2, List.cons_append, List.nil_append, parse2,
    digitVal_digitChar _ h1, digitVal_digitChar _ h2]
  have : 10 * (n / 10 % 10) + n % 10 = n := by omega
  rw [this]

theorem parse4_pad4 (n : Nat) (h : n < 10000) (rest : List Char) :
    parse4 (pad4 n ++ rest) = some (n, rest) := by
  have h1 : n / 1000 % 10 < 10 := Nat.mod_lt _ (by omega)
  have h2 : n / 100 % 10 < 10 := Nat.mod_lt _ (by omega)
  have h3 : n / 10 % 10 < 10 := Nat.mod_lt _ (by omega)
  have h4 : n % 10 < 10 := Nat.mod_lt _ (by omega)
  simp only [pad4, List.cons_append, List.nil_append, parse4,
    digitVal_digitChar _ h1, digitVal_digitChar _ h2,
    digitVal_digitChar _ h3, digitVal_digitChar _ h4]
  have : ((n / 1000 % 10 * 10 + n / 100 % 10) * 10 + n / 10 % 10) * 10 + n % 10 = n := by
    omega
  rw [this]

theorem parse2_pad2_nil (n : Nat) (h : n < 100) : parse2 (pad2 n) = some (n, []) := by
  have := parse2_pad2 n h []
  simpa using this

theorem parseTimeStr_format (t : TimeC) (h : t.Valid) :
    parseTimeStr (formatTimeL t) = some t := by
  obtain ⟨h1, h2, h3, h4, h5, h6⟩ := h
  simp [parseTimeStr, formatTimeL, parse4_pad4 _ h1, parse2_pad2 _ h2,
    parse2_pad2 _ h3, parse2_pad2 _ h4, parse2_pad2 _ h5, parse2_pad2 _ h6,
    expectChar]

theorem parseDateStr_format (d : DateC) (h : d.Valid) :
    parseDateStr (formatDateL d) = some d := by
  obtain ⟨h1, h2, h3⟩ := h
  simp [parseDateStr, formatDateL, parse4_pad4 _ h1, parse2_pad2 _ h2,
    parse2_pad2_nil _ h3]

/-- A date-only string never parses under the date-time pattern: after the
eight digits the pattern demands a 'T' but the input is exhausted. -/
theorem parseTimeStr_formatDate (d : DateC) (h : d.Valid) :
    parseTimeStr (formatDateL d) = none := by
  obtain ⟨h1, h2, h3⟩ := h
  simp [parseTimeStr, formatDateL, parse4_pad4 _ h1, parse2_pad2 _ h2,
    parse2_pad2_nil _ h3, expectChar]

/-- Encoding a due value and parsing it back preserves both the value and the
date versus date-time granularity. -/
theorem Due.from_str_render (due : Due) (h : due.Valid) :
    Due.from_str due.render = some due := by
  cases due with
  | date d =>
    simp [Due.render, Due.from_str, formatDate,
      parseTimeStr_formatDate d h, parseDateStr_format d h]
  | dateTime t =>
    simp [Due.render, Due.from_str, formatTime, parseTimeStr_format t h]

-- ### vobject components ----------------------------------------------------

/-- A vobject `Component` at the VTODO level: a name plus the property map.
vobject stores properties as a map from name to a vector of values; `set`
replaces the whole vector by a singleton and `get_only` answers only when
the vector is a singleton.  The map is embedded as an association list in
which the first entry for a name is authoritative. -/
structure Component where
  name : String
  props : List (String × List String)
deriving DecidableEq, Repr

/-- `Component::set` from vobject as used in src/todo.rs: replace every
property of that name by the single new value. -/
def Component.set (c : Component) (k v : String) : Component :=
  { c with props := (k, [v]) :: c.props.filter (fun p => p.1 != k) }

/-- `Component::get_only` from vobject: the value when the name holds exactly
one property. -/
def Component.get_only (c : Component) (k : String) : Option String :=
  match c.props.find? (fun p => p.1 == k) with
  | some (_, [v]) => some v
  | _ => none

/-- Rust `str::split(',')`, keeping empty pieces, used for CATEGORIES in
src/todo.rs. -/
def splitCommaAux : List Char → List Char → List String
  | [], acc => [String.mk acc.reverse]
  | c :: rest, acc =>
    if c = ',' then String.mk acc.reverse :: splitCommaAux rest []
    else splitCommaAux rest (c :: acc)

def splitComma (s : String) : List String := splitCommaAux s.data []

/-- itertools `.format(",")` as used for CATEGORIES in src/todo.rs. -/
def joinComma : List String → String
  | [] => ""
  | [s] => s
  | s :: rest => s ++ "," ++ joinComma rest

-- ### src/todo.rs: TodoItem -------------------------------------------------

/-- `TodoItem` from src/todo.rs.  `uid` is the wrapped string of `Uid`;
`updated` is the dirty flag. -/
structure TodoItem where
  uid : String
  kind : TodoKind
  created : TimeC
  due : Option Due
  status : TodoStatus
  url : String
  summary : String
  description : String
  last_modified : TimeC
  updated : Bool
deriving DecidableEq, Repr

/-- The CR-stripping in `TodoItem::set_description`: `replace('\r', "")`. -/
def stripCR (s : String) : String := String.mk (s.data.filter (fun c => c != '\r'))

/-- `TodoItem::set_due`.  `Utc::now()` is the explicit `now` argument. -/
def TodoItem.set_due (item : TodoItem) (now : TimeC) (new_due : Due) : TodoItem :=
  if (item.due.map (fun due => due != new_due)).getD true then
    { item with due := some new_due, last_modified := now, updated := true }
  else item

/-- `TodoItem::set_status`. -/
def TodoItem.set_status (item : TodoItem) (now : TimeC) (new_status : TodoStatus) : TodoItem :=
  if item.status != new_status then
    { item with status := new_status, last_modified := now, updated := true }
  else item

/-- `TodoItem::set_summary`. -/
def TodoItem.set_summary (item : TodoItem) (now : TimeC) (new_summary : String) : TodoItem :=
  if item.summary != new_summary then
    { item with summary := new_summary, last_modified := now, updated := true }
  else item

/-- `TodoItem::set_description`: carriage returns are removed from the new
value before the comparison. -/
def TodoItem.set_description (item : TodoItem) (now : TimeC) (new_description : String) : TodoItem :=
  let new_description := stripCR new_description
  if item.description != new_description then
    { item with description := new_description, last_modified := now, updated := true }
  else item

/-- `TodoItem::from_component`.  `now` stands for the `Utc::now()` used when
LAST-MODIFIED is missing. -/
def TodoItem.from_component (c : Component) (now : TimeC) : Option TodoItem := do
  let uid ← c.get_only "UID"
  let categoriesValue ← c.get_only "CATEGORIES"
  let kind ← ALL_TODO_KINDS.find? (fun kind =>
    (splitComma categoriesValue).contains kind.category)
  let dtstamp ← c.get_only "DTSTAMP"
  let created ← parseTimeStr dtstamp.data
  let due ← match c.get_only "DUE" with
    | some s => (Due.from_str s).map some
    | none => some none
  let statusValue ← c.get_only "STATUS"
  let status ← TodoStatus.from_str statusValue
  let url ← c.get_only "URL"
  let summary ← c.get_only "SUMMARY"
  let description ← c.get_only "DESCRIPTION"
  let lmu ← match c.get_only "LAST-MODIFIED" with
    | some s => (parseTimeStr s.data).map (fun t => (t, false))
    | none => some (now, true)
  some {
    uid, kind, created, due, status, url, summary, description,
    last_modified := lmu.1, updated := lmu.2
  }

/-- `TodoItem::update_component`: write the fields this system owns, merging
CATEGORIES so that foreign tokens survive and exactly one kind token
remains. -/
def TodoItem.update_component (item : TodoItem) (c : Component) : Component :=
  let c := c.set "SUMMARY" item.summary
  let c := c.set "DESCRIPTION" item.description
  let c := c.set "URL" item.url
  let c := match item.due with
    | some due => c.set "DUE" due.render
    | none => c
  let c := c.set "LAST-MODIFIED" (formatTime item.last_modified)
  match c.get_only "CATEGORIES" with
  | some value =>
    let categories := splitComma value
    let kind_categories := categories.filter (fun category =>
      ALL_TODO_KINDS.any (fun kind => category == kind.category))
    if kind_categories = [item.kind.category] then c
    else
      c.set "CATEGORIES" (joinComma
        ((categories.filter (fun category =>
            ALL_TODO_KINDS.all (fun kind => category != kind.category)))
          ++ [item.kind.category]))
  | none => c.set "CATEGORIES" item.kind.category

/-- `TodoItem::vtodo`: build a fresh VTODO.  `now` stands for the `Utc::now()`
written into DTSTAMP. -/
def TodoItem.vtodo (item : TodoItem) (now : TimeC) : Component :=
  let c : Component := { name := "VTODO", props := [] }
  let c := c.set "DTSTAMP" (formatTime now)
  let c := c.set "UID" item.uid
  let c := c.set "CREATED" (formatTime item.created)
  let c := c.set "CLASS" "CONFIDENTIAL"
  let c := c.set "STATUS" item.status.as_ref
  item.update_component c

-- ### Component lookup lemmas -----------------------------------------------

theorem find?_filter_ne (ps : List (String × List String)) (k k' : String) (h : k' ≠ k) :
    (ps.filter (fun p => p.1 != k)).find? (fun p => p.1 == k')
      = ps.find? (fun p => p.1 == k') := by
  have hkk : (k == k') = false := by
    simp only [beq_eq_false_iff_ne]
    exact fun he => h he.symm
  induction ps with
  | nil => simp
  | cons a ps ih =>
    by_cases hak : a.1 = k
    · have ha : (a.1 == k') = false := by rw [hak]; exact hkk
      have hdrop : (a.1 != k) = false := by simp [hak]
      simp only [List.filter_cons, hdrop, if_neg Bool.false_ne_true, ih,
        List.find?_cons, ha]
    · have hkeep : (a.1 != k) = true := by simp [hak]
      simp only [List.filter_cons, hkeep, if_pos rfl]
      cases hpa : (a.1 == k') <;> simp [List.find?_cons, hpa, ih]

theorem Component.get_only_set_same (c : Component) (k v : String) :
    (c.set k v).get_only k = some v := by
  simp [Component.set, Component.get_only]

theorem Component.get_only_set_ne (c : Component) (k v k' : String) (h : k' ≠ k) :
    (c.set k v).get_only k' = c.get_only k' := by
  have hne : (k == k') = false := by
    simp only [beq_eq_false_iff_ne]
    exact fun he => h he.symm
  simp [Component.set, Component.get_only, List.find?_cons, hne,
    find?_filter_ne _ _ _ h]

-- ### Round-trip helper lemmas ---------------------------------------------

theorem kind_find_self (k : TodoKind) :
    ALL_TODO_KINDS.find? (fun kind =>
      (splitComma k.category).contains kind.category) = some k := by
  cases k <;> decide

theorem status_from_str_as_ref (s : TodoStatus) :
    TodoStatus.from_str s.as_ref = some s := by
  cases s <;> rfl

theorem vtodo_get_UID (item : TodoItem) (n : TimeC) :
    (item.vtodo n).get_only "UID" = some item.uid := by
  obtain ⟨uid, kind, created, due, status, url, summary, description, lm, upd⟩ := item
  cases due <;> rfl

theorem vtodo_get_CATEGORIES (item : TodoItem) (n : TimeC) :
    (item.vtodo n).get_only "CATEGORIES" = some item.kind.category := by
  obtain ⟨uid, kind, created, due, status, url, summary, description, lm, upd⟩ := item
  cases due <;> rfl

theorem vtodo_get_DTSTAMP (item : TodoItem) (n : TimeC) :
    (item.vtodo n).get_only "DTSTAMP" = some (formatTime n) := by
  obtain ⟨uid, kind, created, due, status, url, summary, description, lm, upd⟩ := item
  cases due <;> rfl

theorem vtodo_get_DUE (item : TodoItem) (n : TimeC) :
    (item.vtodo n).get_only "DUE" = item.due.map Due.render := by
  obtain ⟨uid, kind, created, due, status, url, summary, description, lm, upd⟩ := item
  cases due <;> rfl

theorem vtodo_get_STATUS (item : TodoItem) (n : TimeC) :
    (item.vtodo n).get_only "STATUS" = some item.status.as_ref := by
  obtain ⟨uid, kind, created, due, status, url, summary, description, lm, upd⟩ := item
  cases due <;> rfl

theorem vtodo_get_URL (item : TodoItem) (n : TimeC) :
    (item.vtodo n).get_only "URL" = some item.url := by
  obtain ⟨uid, kind, created, due, status, url, summary, description, lm, upd⟩ := item
  cases due <;> rfl

theorem vtodo_get_SUMMARY (item : TodoItem) (n : TimeC) :
    (item.vtodo n).get_only "SUMMARY" = some item.summary := by
  obtain ⟨uid, kind, created, due, status, url, summary, description, lm, upd⟩ := item
  cases due <;> rfl

theorem vtodo_get_DESCRIPTION (item : TodoItem) (n : TimeC) :
    (item.vtodo n).get_only "DESCRIPTION" = some item.description := by
  obtain ⟨uid, kind, created, due, status, url, summary, description, lm, upd⟩ := item
  cases due <;> rfl

theorem vtodo_get_LM (item : TodoItem) (n : TimeC) :
    (item.vtodo n).get_only "LAST-MODIFIED" = some (formatTime item.last_modified) := by
  obtain ⟨uid, kind, created, due, status, url, summary, description, lm, upd⟩ := item
  cases due <;> rfl

theorem from_component_vtodo (item : TodoItem) (encNow decNow : TimeC)
    (hEnc : encNow.Valid) (hLM : item.last_modified.Valid)
    (hDue : ∀ d, item.due = some d → d.Valid) :
    (TodoItem.from_component (item.vtodo encNow) decNow).map
      (fun d => (d.uid, d.kind, d.status, d.url, d.summary, d.description, d.due))
    = some (item.uid, item.kind, item.status, item.url, item.summary,
        item.description, item.due) := by
  have hp1 : parseTimeStr (formatTime encNow).data = some encNow :=
    parseTimeStr_format _ hEnc
  have hp2 : parseTimeStr (formatTime item.last_modified).data = some item.last_modified :=
    parseTimeStr_format _ hLM
  cases hdue : item.due with
  | none =>
    simp only [TodoItem.from_component, vtodo_get_UID, vtodo_get_CATEGORIES,
      kind_find_self, vtodo_get_DTSTAMP, vtodo_get_DUE, vtodo_get_STATUS,
      status_from_str_as_ref, vtodo_get_URL, vtodo_get_SUMMARY,
      vtodo_get_DESCRIPTION, vtodo_get_LM, hdue, hp1, hp2,
      Option.bind_eq_bind, Option.some_bind, Option.map_none', Option.map_some']
  | some d =>
    have hd : Due.from_str d.render = some d := Due.from_str_render d (hDue d hdue)
    simp only [TodoItem.from_component, vtodo_get_UID, vtodo_get_CATEGORIES,
      kind_find_self, vtodo_get_DTSTAMP, vtodo_get_DUE, vtodo_get_STATUS,
      status_from_str_as_ref, vtodo_get_URL, vtodo_get_SUMMARY,
      vtodo_get_DESCRIPTION, vtodo_get_LM, hdue, hp1, hp2, hd,
      Option.bind_eq_bind, Option.some_bind, Option.map_none', Option.map_some']

-- ### src/account.rs: errors and the item lookup -----------------------------

inductive ItemError where
  | serviceError (service : String)
  | queryError (service : String) (message : String)
deriving DecidableEq, Repr

/-- `ItemLookup` = `BTreeMap<String, &mut TodoItem>`, embedded as an
association list keyed by url; the first entry for a key is authoritative. -/
abbrev ItemLookup := List (String × TodoItem)

/-- Map lookup (`existing_items.get_mut(&result.url)` read side). -/
def lookupItem (m : ItemLookup) (url : String) : Option TodoItem :=
  match m with
  | [] => none
  | (k, v) :: rest => if k = url then some v else lookupItem rest url

/-- In-place mutation through `get_mut`: rewrite the authoritative entry. -/
def updateItem (m : ItemLookup) (url : String) (f : TodoItem → TodoItem) : ItemLookup :=
  match m with
  | [] => []
  | (k, v) :: rest =>
    if k = url then (k, f v) :: rest else (k, v) :: updateItem rest url f

-- ### The normalized remote item and the merge step --------------------------

/-- The normalized remote item (`GithubItem` in src/account/github.rs and
`GitlabItem` in src/account/gitlab.rs have this exact shape). -/
structure RemoteItem where
  due : Option Due
  summary : String
  description : String
  kind : TodoKind
  status : TodoStatus
  url : String
deriving DecidableEq, Repr

/-- The match-found body of `fetch_items` (identical in both backends):
`set_due` only when the remote supplies a due, then `set_status`,
`set_summary`, `set_description`. -/
def applyRemote (now : TimeC) (result : RemoteItem) (item : TodoItem) : TodoItem :=
  let item := match result.due with
    | some due => item.set_due now due
    | none => item
  let item := item.set_status now result.status
  let item := item.set_summary now result.summary
  item.set_description now result.description

/-- The no-match body of `fetch_items`: `TodoItem::builder()` with lines
`kind`, `status`, `url`, `summary`, `description`, optional `due`, then
`build()`.  Builder defaults: `uid` = fresh `Uid::default()` (modelled by
the supply `uidS` at index `fresh`), `created` = `last_modified` = now,
`updated` = false. -/
def buildNewItem (now : TimeC) (uid : String) (result : RemoteItem) : TodoItem :=
  { uid, kind := result.kind, created := now, due := result.due,
    status := result.status, url := result.url, summary := result.summary,
    description := result.description, last_modified := now, updated := false }

/-- The `filter_map` body of `fetch_items` over the fetched remote items
(identical in src/account/github.rs and src/account/gitlab.rs): matched
items are updated in place and produce nothing; unmatched items produce a
freshly built item.  `uidS`/`fresh` model the stream of `Uuid::new_v4`
values. -/
def mergeItems (now : TimeC) (uidS : Nat → String) :
    List RemoteItem → ItemLookup → Nat → List TodoItem × ItemLookup
  | [], m, _ => ([], m)
  | result :: rest, m, fresh =>
    match lookupItem m result.url with
    | some _ =>
      mergeItems now uidS rest (updateItem m result.url (applyRemote now result)) fresh
    | none =>
      let out := mergeItems now uidS rest m (fresh + 1)
      (buildNewItem now (uidS fresh) result :: out.1, out.2)

-- ### src/account/github/client.rs: errors and retry/backoff -----------------

/-- `GithubError`; payloads that the claims never inspect are reduced to the
data the code matches on. -/
inductive GithubError where
  | urlParse
  | sendRequest (endpoint : String)
  | github (response : String)
  | deserialize
  | githubService (status : Nat)
  | jsonResponse
  | graphQL (message : List String)
  | noResponse
  | githubBackoff
deriving DecidableEq, Repr

/-- `GithubError::should_backoff`: only the service-error class retries. -/
def GithubError.should_backoff : GithubError → Bool
  | .githubService _ => true
  | _ => false

def BACKOFF_LIMIT : Nat := 5
def BACKOFF_START : Nat := 1
def BACKOFF_SCALE : Nat := 2

instance {ε α : Type} [DecidableEq ε] [DecidableEq α] : DecidableEq (Except ε α) :=
  fun a b =>
    match a, b with
    | .error e1, .error e2 =>
      if h : e1 = e2 then isTrue (by rw [h])
      else isFalse (by intro hh; cases hh; exact h rfl)
    | .ok x, .ok y =>
      if h : x = y then isTrue (by rw [h])
      else isFalse (by intro hh; cases hh; exact h rfl)
    | .error _, .ok _ => isFalse (by intro h; cases h)
    | .ok _, .error _ => isFalse (by intro h; cases h)

/-- Outcome of `retry_with_backoff`: the returned result, how many times the
closure ran, and the slept durations in order. -/
structure RetryTrace (α : Type) where
  result : Except GithubError α
  attempts : Nat
  sleeps : List Nat
deriving DecidableEq, Repr

/-- The loop body of `retry_with_backoff`: `go` is indexed by attempt number
(the Rust closure is re-invoked each iteration); `timeout` doubles after
each sleep. -/
def retryAux (go : Nat → Except GithubError α) :
    Nat → Nat → Nat → List Nat → RetryTrace α
  | attempt, 0, _, sleeps => ⟨.error .githubBackoff, attempt, sleeps.reverse⟩
  | attempt, remaining + 1, timeout, sleeps =>
    match go attempt with
    | .ok r => ⟨.ok r, attempt + 1, sleeps.reverse⟩
    | .error err =>
      if err.should_backoff then
        retryAux go (attempt + 1) remaining (timeout * BACKOFF_SCALE) (timeout :: sleeps)
      else ⟨.error err, attempt + 1, sleeps.reverse⟩

/-- `retry_with_backoff` in src/account/github/client.rs. -/
def retry_with_backoff (go : Nat → Except GithubError α) : RetryTrace α :=
  retryAux go 0 BACKOFF_LIMIT BACKOFF_START []

-- ### src/account/github.rs: pagination loop ---------------------------------

/-- `pageInfo` of a GraphQL response. -/
structure PageInfo where
  hasNextPage : Bool
  endCursor : Option String
deriving DecidableEq, Repr

/-- One page of a cursor-paginated response: the fetched items plus the page
info. -/
structure PageRsp (α : Type) where
  items : List α
  pageInfo : PageInfo
deriving DecidableEq

/-- How a pagination loop in `query_user` ended.  `panicked` is the
`assert!` that fires when the response claims another page but carries no
end cursor. -/
inductive LoopEnd (α : Type) where
  | ok (items : List α)
  | err (e : ItemError)
  | panicked
  | fuelOut
deriving DecidableEq

structure PagesOut (α : Type) where
  ending : LoopEnd α
  sends : Nat
deriving DecidableEq

/-- One `loop { ... }` of `GithubQuery::query_user` (both the issues loop and
the pull-requests loop have this exact shape): send with the current
cursor, extend the accumulator, continue while `has_next_page`, and
`assert!` (panic) when `has_next_page` is set but `end_cursor` is absent.
The Rust loop has no fuel; the explicit fuel only bounds the embedding and
the theorems show the interesting endings are fuel-independent. -/
def queryPages (send : Option String → Except ItemError (PageRsp α)) :
    Nat → Option String → List α → PagesOut α
  | 0, _, _ => ⟨.fuelOut, 0⟩
  | fuel + 1, cursor, acc =>
    match send cursor with
    | .error e => ⟨.err e, 1⟩
    | .ok rsp =>
      let acc := acc ++ rsp.items
      if rsp.pageInfo.hasNextPage then
        match rsp.pageInfo.endCursor with
        | none => ⟨.panicked, 1⟩
        | some c =>
          let rest := queryPages send fuel (some c) acc
          ⟨rest.ending, 1 + rest.sends⟩
      else ⟨.ok acc, 1⟩

-- ### src/config.rs: query targets and filters --------------------------------

inductive QueryTarget where
  | selfUser
  | projects (projects : List String)
deriving DecidableEq, Repr

/-- Outcome of a backend call; `panicked` models a Rust panic
(`unimplemented!`, a failed `assert!` or `expect`). -/
inductive FetchOutcome (α : Type) where
  | ok (v : α)
  | err (e : ItemError)
  | panicked (msg : String)
deriving DecidableEq

-- ### src/account/github.rs: GithubQuery state -------------------------------

/-- `GithubQuery`: `connResult` is the value `client::Github::new` computes
for the stored conninfo (the LazyCell closure is deterministic), `forced`
whether the LazyCell has been forced, `initErrorLogged` whether the
`OnceCell` has fired the connection-failure log. -/
structure GithubQuery where
  connResult : Except GithubError Unit
  forced : Bool
  initErrorLogged : Bool
deriving DecidableEq

/-- `GithubQuery::new`. -/
def GithubQuery.new (connResult : Except GithubError Unit) : GithubQuery :=
  ⟨connResult, false, false⟩

structure GithubFetchResult where
  outcome : FetchOutcome (List TodoItem)
  lookup : ItemLookup
  state : GithubQuery
  logEmissions : Nat
  constructions : Nat
deriving DecidableEq

/-- `GithubQuery::fetch_items`.  `queryUser` stands for what `query_user`
would return over the network for this call; `now`/`uidS` for the clock and
the `Uuid::new_v4` stream.  `self.client.as_ref()` forces the LazyCell
(counted in `constructions`); on error the OnceCell logs once and the call
returns `ServiceError`; a Projects target reaches
`query_projects = unimplemented!()` and panics. -/
def GithubQuery.fetch_items (q : GithubQuery) (target : QueryTarget)
    (queryUser : Except ItemError (List RemoteItem))
    (now : TimeC) (uidS : Nat → String) (existing_items : ItemLookup) :
    GithubFetchResult :=
  let constructions := if q.forced then 0 else 1
  let q := { q with forced := true }
  match q.connResult with
  | .error _ =>
    let logs := if q.initErrorLogged then 0 else 1
    ⟨.err (.serviceError "github"), existing_items,
      { q with initErrorLogged := true }, logs, constructions⟩
  | .ok _ =>
    match target with
    | .projects _ =>
      ⟨.panicked "not implemented", existing_items, q, 0, constructions⟩
    | .selfUser =>
      match queryUser with
      | .error e => ⟨.err e, existing_items, q, 0, constructions⟩
      | .ok results =>
        let out := mergeItems now uidS results existing_items 0
        ⟨.ok out.1, out.2, q, 0, constructions⟩

/-- `n` successive `fetch_items` calls on one `GithubQuery` instance,
accumulating log emissions and client constructions. -/
def runGithubCalls (now : TimeC) (uidS : Nat → String) :
    Nat → GithubQuery → GithubQuery × Nat × Nat × List (FetchOutcome (List TodoItem))
  | 0, q => (q, 0, 0, [])
  | n + 1, q =>
    let r := q.fetch_items .selfUser (.ok []) now uidS []
    let rest := runGithubCalls now uidS n r.state
    (rest.1, r.logEmissions + rest.2.1, r.constructions + rest.2.2.1,
      r.outcome :: rest.2.2.2)

-- ### src/account/gitlab.rs: GitlabQuery state -------------------------------

/-- `GitlabQuery`: the client is constructed eagerly in `new` and the result
(success or the construction error) is stored. -/
structure GitlabQuery where
  client : Except String Unit
deriving DecidableEq

/-- `GitlabQuery::fetch_items`.  `queryResult` stands for what `query_user`
or `query_projects` would return over the network.  A stored construction
error is re-surfaced as `ServiceError` with an `error!` log on every call
(no once-cell here). -/
def GitlabQuery.fetch_items (q : GitlabQuery)
    (queryResult : Except ItemError (List RemoteItem))
    (now : TimeC) (uidS : Nat → String) (existing_items : ItemLookup) :
    FetchOutcome (List TodoItem) × ItemLookup × Nat :=
  match q.client with
  | .error _ => (.err (.serviceError "gitlab"), existing_items, 1)
  | .ok _ =>
    match queryResult with
    | .error e => (.err e, existing_items, 0)
    | .ok results =>
      let out := mergeItems now uidS results existing_items 0
      (.ok out.1, out.2, 0)

/-- `n` successive `fetch_items` calls on one `GitlabQuery` instance. -/
def runGitlabCalls (now : TimeC) (uidS : Nat → String) :
    Nat → GitlabQuery → Nat × List (FetchOutcome (List TodoItem))
  | 0, _ => (0, [])
  | n + 1, q =>
    let r := q.fetch_items (.ok []) now uidS []
    let rest := runGitlabCalls now uidS n q
    (r.2.2 + rest.1, r.1 :: rest.2)

-- ### Remote-to-item conversions ---------------------------------------------

/-- GitHub GraphQL milestone: only `due_on` is read. -/
structure GithubMilestone where
  due_on : Option TimeC
deriving DecidableEq, Repr

/-- GraphQL `assignees` connection: `assignees.assignees` is an optional
list, of which only emptiness is inspected. -/
structure GithubAssignees where
  assignees : Option (List Unit)
deriving DecidableEq, Repr

inductive GithubIssueState where
  | OPEN
  | CLOSED
  | Other (s : String)
deriving DecidableEq, Repr

structure GithubIssue where
  milestone : Option GithubMilestone
  state : GithubIssueState
  assignees : GithubAssignees
  title : String
  body : String
  url : String
deriving DecidableEq, Repr

/-- `impl_issue!` in src/account/github.rs: `From<IssueInfo> for GithubItem`. -/
def GithubItem.ofIssue (issue : GithubIssue) : RemoteItem :=
  let due := (issue.milestone.bind (fun m => m.due_on)).map Due.dateTime
  let kind := TodoKind.issue
  let status := match issue.state with
    | .CLOSED => TodoStatus.completed
    | .OPEN =>
      if (issue.assignees.assignees.map List.isEmpty).getD true then
        TodoStatus.needsAction
      else TodoStatus.inProcess
    | .Other _ => TodoStatus.needsAction
  { due, summary := issue.title, description := issue.body, kind, status,
    url := issue.url }

inductive GithubPrState where
  | OPEN
  | CLOSED
  | MERGED
  | Other (s : String)
deriving DecidableEq, Repr

structure GithubPullRequest where
  milestone : Option GithubMilestone
  state : GithubPrState
  assignees : GithubAssignees
  title : String
  body : String
  url : String
deriving DecidableEq, Repr

/-- `impl_pull_request!` in src/account/github.rs. -/
def GithubItem.ofPullRequest (pr : GithubPullRequest) : RemoteItem :=
  let due := (pr.milestone.bind (fun m => m.due_on)).map Due.dateTime
  let kind := TodoKind.pullRequest
  let status := match pr.state with
    | .CLOSED => TodoStatus.cancelled
    | .MERGED => TodoStatus.completed
    | .OPEN =>
      if (pr.assignees.assignees.map List.isEmpty).getD true then
        TodoStatus.needsAction
      else TodoStatus.inProcess
    | .Other _ => TodoStatus.needsAction
  { due, summary := pr.title, description := pr.body, kind, status,
    url := pr.url }

structure GitlabMilestone where
  due_date : Option DateC
deriving DecidableEq, Repr

structure GitlabIssue where
  title : String
  description : Option String
  state : String
  web_url : String
  assignees : List Unit
  due_date : Option DateC
  milestone : Option GitlabMilestone
deriving DecidableEq, Repr

/-- `From<GitlabIssue> for GitlabItem` in src/account/gitlab.rs: the issue's
own `due_date` first, the milestone's as a fallback. -/
def GitlabItem.ofIssue (issue : GitlabIssue) : RemoteItem :=
  let due := (issue.due_date.or (issue.milestone.bind (fun m => m.due_date))).map Due.date
  let kind := TodoKind.issue
  let status :=
    if issue.state = "closed" then TodoStatus.completed
    else if issue.state = "opened" then
      if issue.assignees.isEmpty then TodoStatus.needsAction
      else TodoStatus.inProcess
    else TodoStatus.needsAction
  { due, summary := issue.title, description := issue.description.getD "",
    kind, status, url := issue.web_url }

structure GitlabMergeRequest where
  title : String
  description : Option String
  state : String
  web_url : String
  assignees : List Unit
  milestone : Option GitlabMilestone
deriving DecidableEq, Repr

/-- `From<GitlabMergeRequest> for GitlabItem` in src/account/gitlab.rs. -/
def GitlabItem.ofMergeRequest (mr : GitlabMergeRequest) : RemoteItem :=
  let due := (mr.milestone.bind (fun m => m.due_date)).map Due.date
  let kind := TodoKind.pullRequest
  let status :=
    if mr.state = "closed" then TodoStatus.cancelled
    else if mr.state = "merged" then TodoStatus.completed
    else if mr.state = "opened" then
      if mr.assignees.isEmpty then TodoStatus.needsAction
      else TodoStatus.inProcess
    else TodoStatus.needsAction
  { due, summary := mr.title, description := mr.description.getD "",
    kind, status, url := mr.web_url }

-- ### src/todo.rs: TodoFile --------------------------------------------------

inductive TodoError where
  | readFile (path : String)
  | writeFile (path : String) (msg : String)
  | parseComponent
deriving DecidableEq, Repr

/-- The `PRODID_PREFIX` ownership marker (CARGO_PKG_NAME = devtodo). -/
def prodidStart : String := "-//IDN benboeckel.net//devtodo/"

def strStartsWith (s p : String) : Bool := p.data.isPrefixOf s.data

/-- The VCALENDAR wrapper: its properties plus its subcomponents. -/
structure VCalendar where
  props : List (String × List String)
  subcomponents : List Component
deriving DecidableEq, Repr

def VCalendar.get_only (c : VCalendar) (k : String) : Option String :=
  match c.props.find? (fun p => p.1 == k) with
  | some (_, [v]) => some v
  | _ => none

/-- `TodoFile::is_our_component`. -/
def TodoFile.is_our_component (c : VCalendar) : Option Unit :=
  match c.get_only "PRODID" with
  | none => none
  | some prodid =>
    if ¬ strStartsWith prodid prodidStart then none
    else if c.subcomponents.length ≠ 1 then none
    else some ()

/-- `TodoFile::extract_component_as_mut` / `_as_ref`: the unique VTODO
subcomponent of an owned document. -/
def TodoFile.extract_component (c : VCalendar) : Option Component :=
  match TodoFile.is_our_component c with
  | none => none
  | some _ =>
    match c.subcomponents with
    | [sub] => if sub.name ≠ "VTODO" then none else some sub
    | _ => none

structure TodoFile where
  path : String
  component : VCalendar
  item : TodoItem
deriving DecidableEq, Repr

inductive Updated where
  | yes
  | no
deriving DecidableEq, Repr

/-- `TodoFile::sync`: when the item is dirty, re-render the owned fields into
the VTODO subcomponent and clear the dirty flag.  `none` models the
`expect` panic when the stored component stopped being extractable. -/
def TodoFile.sync (f : TodoFile) : Option (TodoFile × Updated) :=
  if f.item.updated then
    match TodoFile.extract_component f.component with
    | none => none
    | some vtodo =>
      let vtodo := f.item.update_component vtodo
      some ({ f with
                component := { f.component with subcomponents := [vtodo] },
                item := { f.item with updated := false } },
            .yes)
  else some (f, .no)

/-- `TodoFile::write`: sync first; only a `Yes` from sync reaches
`fs::write`, whose outcome this call takes as the argument `fsWrite`.  The
Bool reports whether a filesystem write was attempted. -/
def TodoFile.write (f : TodoFile) (fsWrite : Except String Unit) :
    Option (TodoFile × Bool × Except TodoError Unit) :=
  match f.sync with
  | none => none
  | some (f', .yes) =>
    match fsWrite with
    | .ok _ => some (f', true, .ok ())
    | .error e => some (f', true, .error (.writeFile f'.path e))
  | some (f', .no) => some (f', false, .ok ())

-- ### Merge-step helper lemmas ----------------------------------------------

theorem lookupItem_updateItem (m : ItemLookup) (url : String) (f : TodoItem → TodoItem)
    (u : String) :
    lookupItem (updateItem m url f) u
      = if u = url then (lookupItem m url).map f else lookupItem m u := by
  induction m with
  | nil => simp [lookupItem, updateItem]
  | cons p rest ih =>
    obtain ⟨k, v⟩ := p
    by_cases hk : k = url
    · subst hk
      by_cases hu : u = k
      · subst hu
        simp [lookupItem, updateItem]
      · simp [lookupItem, updateItem, hu, Ne.symm]
    · by_cases hu : k = u
      · subst hu
        simp [lookupItem, updateItem, hk]
      · simp [lookupItem, updateItem, hk, hu, ih]

/-- Following the claim's words for the no-match case: each remote item whose
url is absent from `existing_items` (the map as given, since matches never
add or remove keys) yields exactly one new item, built from the remote
fields with the next fresh uid and `created` = now. -/
def newItemsSpec (now : TimeC) (uidS : Nat → String) :
    List RemoteItem → ItemLookup → Nat → List TodoItem
  | [], _, _ => []
  | r :: rest, m, fresh =>
    if (lookupItem m r.url).isSome then newItemsSpec now uidS rest m fresh
    else buildNewItem now (uidS fresh) r :: newItemsSpec now uidS rest m (fresh + 1)

theorem newItemsSpec_congr (now : TimeC) (uidS : Nat → String) (rs : List RemoteItem) :
    ∀ m1 m2 fresh, (∀ u, (lookupItem m1 u).isSome = (lookupItem m2 u).isSome) →
      newItemsSpec now uidS rs m1 fresh = newItemsSpec now uidS rs m2 fresh := by
  induction rs with
  | nil => intros; rfl
  | cons r rest ih =>
    intro m1 m2 fresh h
    simp only [newItemsSpec, h r.url]
    by_cases hs : (lookupItem m2 r.url).isSome
    · simp [hs, ih m1 m2 fresh h]
    · simp [hs, ih m1 m2 (fresh + 1) h]

theorem lookupItem_updateItem_isSome (m : ItemLookup) (url : String)
    (f : TodoItem → TodoItem) (u : String) :
    (lookupItem (updateItem m url f) u).isSome = (lookupItem m u).isSome := by
  rw [lookupItem_updateItem]
  by_cases hu : u = url
  · subst hu; simp
  · simp [hu]

theorem mergeItems_fst (now : TimeC) (uidS : Nat → String) (rs : List RemoteItem) :
    ∀ m fresh, (mergeItems now uidS rs m fresh).1 = newItemsSpec now uidS rs m fresh := by
  induction rs with
  | nil => intros; rfl
  | cons r rest ih =>
    intro m fresh
    cases hl : lookupItem m r.url with
    | some item0 =>
      simp only [mergeItems, hl, newItemsSpec, Option.isSome_some, if_pos]
      rw [ih]
      exact newItemsSpec_congr now uidS rest _ m fresh
        (fun u => lookupItem_updateItem_isSome m r.url _ u)
    | none =>
      simp only [mergeItems, hl, newItemsSpec, Option.isSome_none,
        Bool.false_eq_true, if_neg, ih]
      simp

theorem mergeItems_snd (now : TimeC) (uidS : Nat → String) (rs : List RemoteItem) :
    ∀ m fresh u, lookupItem (mergeItems now uidS rs m fresh).2 u
      = (lookupItem m u).map (fun item =>
          (rs.filter (fun r => r.url == u)).foldl
            (fun it r => applyRemote now r it) item) := by
  induction rs with
  | nil =>
    intro m fresh u
    simp only [mergeItems, List.filter_nil, List.foldl_nil]
    cases lookupItem m u <;> rfl
  | cons r rest ih =>
    intro m fresh u
    cases hl : lookupItem m r.url with
    | some item0 =>
      simp only [mergeItems, hl]
      rw [ih]
      by_cases hu : r.url = u
      · subst hu
        rw [lookupItem_updateItem]
        simp only [if_pos rfl, hl, Option.map_some, List.filter_cons,
          beq_self_eq_true, if_pos, List.foldl_cons]
        rfl
      · rw [lookupItem_updateItem]
        have : ¬ (u = r.url) := fun h => hu h.symm
        simp only [if_neg this, List.filter_cons]
        have hb : (r.url == u) = false := by simp [hu]
        simp [hb]
    | none =>
      simp only [mergeItems, hl]
      rw [ih]
      by_cases hu : r.url = u
      · subst hu
        rw [hl]
        simp
      · have hb : (r.url == u) = false := by simp [hu]
        simp [List.filter_cons, hb]

theorem newItemsSpec_all_matched (now : TimeC) (uidS : Nat → String)
    (rs : List RemoteItem) :
    ∀ m fresh, (∀ r ∈ rs, (lookupItem m r.url).isSome = true) →
      newItemsSpec now uidS rs m fresh = [] := by
  induction rs with
  | nil => intros; rfl
  | cons r rest ih =>
    intro m fresh h
    have hr := h r (by simp)
    simp only [newItemsSpec, hr, if_pos]
    exact ih m fresh (fun r' hr' => h r' (by simp [hr']))

/-- The orchestrator-side step after `fetch_items`: the returned new items
are added to the lookup under their urls. -/
def insertNewItems (items : List TodoItem) (m : ItemLookup) : ItemLookup :=
  m ++ items.map (fun it => (it.url, it))

theorem lookupItem_append (m1 m2 : ItemLookup) (u : String) :
    lookupItem (m1 ++ m2) u
      = match lookupItem m1 u with
        | some v => some v
        | none => lookupItem m2 u := by
  induction m1 with
  | nil => simp [lookupItem]
  | cons p rest ih =>
    obtain ⟨k, v⟩ := p
    by_cases hk : k = u
    · simp [lookupItem, hk]
    · simp [lookupItem, hk, ih]

theorem lookupItem_map_pair_isSome (items : List TodoItem) (u : String)
    (h : ∃ it ∈ items, it.url = u) :
    (lookupItem (items.map (fun it => (it.url, it))) u).isSome = true := by
  induction items with
  | nil => simp at h
  | cons it rest ih =>
    by_cases hu : it.url = u
    · simp [lookupItem, hu]
    · simp only [List.map_cons, lookupItem, if_neg hu]
      apply ih
      obtain ⟨it', hmem, hurl⟩ := h
      rcases List.mem_cons.mp hmem with heq | hmem'
      · exact absurd (heq ▸ hurl) hu
      · exact ⟨it', hmem', hurl⟩

theorem newItemsSpec_covers (now : TimeC) (uidS : Nat → String) (rs : List RemoteItem) :
    ∀ m fresh r, r ∈ rs → (lookupItem m r.url).isSome = false →
      ∃ it ∈ newItemsSpec now uidS rs m fresh, it.url = r.url := by
  induction rs with
  | nil => intro m fresh r h; simp at h
  | cons r' rest ih =>
    intro m fresh r hmem hnone
    rcases List.mem_cons.mp hmem with heq | hmem'
    · subst heq
      simp only [newItemsSpec, hnone, Bool.false_eq_true, if_neg]
      exact ⟨buildNewItem now (uidS fresh) r, by simp, rfl⟩
    · by_cases hs : (lookupItem m r'.url).isSome
      · simp only [newItemsSpec, hs, if_pos]
        exact ih m fresh r hmem' hnone
      · simp only [newItemsSpec, hs, if_neg]
        obtain ⟨it, hin, hurl⟩ := ih m (fresh + 1) r hmem' hnone
        exact ⟨it, by simp [hin], hurl⟩

-- ### Setter no-op lemmas ----------------------------------------------------

theorem set_due_same (item : TodoItem) (now : TimeC) (d : Due) (h : item.due = some d) :
    item.set_due now d = item := by
  simp [TodoItem.set_due, h]

theorem set_status_same (item : TodoItem) (now : TimeC) :
    item.set_status now item.status = item := by
  simp [TodoItem.set_status]

theorem set_summary_same (item : TodoItem) (now : TimeC) :
    item.set_summary now item.summary = item := by
  simp [TodoItem.set_summary]

theorem set_description_same (item : TodoItem) (now : TimeC) (v : String)
    (h : stripCR v = item.description) :
    item.set_description now v = item := by
  simp [TodoItem.set_description, h]

theorem set_status_due (item : TodoItem) (now : TimeC) (s : TodoStatus) :
    (item.set_status now s).due = item.due := by
  simp only [TodoItem.set_status]
  split <;> rfl

theorem set_summary_due (item : TodoItem) (now : TimeC) (s : String) :
    (item.set_summary now s).due = item.due := by
  simp only [TodoItem.set_summary]
  split <;> rfl

theorem set_description_due (item : TodoItem) (now : TimeC) (s : String) :
    (item.set_description now s).due = item.due := by
  simp only [TodoItem.set_description]
  split <;> rfl

/-- The compare-and-set step touches `due` only when the remote item
supplies one. -/
theorem applyRemote_due_none (now : TimeC) (r : RemoteItem) (item : TodoItem) :
    (applyRemote now { r with due := none } item).due = item.due := by
  simp only [applyRemote]
  rw [set_description_due, set_summary_due, set_status_due]

theorem foldl_fixpoint {α β : Type} (g : β → α → α) (a : α) (l : List β)
    (h : ∀ x ∈ l, g x a = a) : l.foldl (fun it x => g x it) a = a := by
  induction l with
  | nil => rfl
  | cons x l ih =>
    simp only [List.foldl_cons, h x (by simp)]
    exact ih (fun y hy => h y (by simp [hy]))

/-- An existing item whose values the remote data leaves unchanged survives
the merge identically (in particular its dirty flag stays as it was). -/
theorem mergeItems_preserves_unchanged (now : TimeC) (uidS : Nat → String)
    (rs : List RemoteItem) (m : ItemLookup) (fresh : Nat) (u : String)
    (item : TodoItem) (hlook : lookupItem m u = some item)
    (hfix : ∀ r ∈ rs, r.url = u → applyRemote now r item = item) :
    lookupItem (mergeItems now uidS rs m fresh).2 u = some item := by
  rw [mergeItems_snd, hlook]
  simp only [Option.map_some']
  congr 1
  apply foldl_fixpoint
  intro r hr
  have hm := List.mem_filter.mp hr
  exact hfix r hm.1 (by simpa using hm.2)

-- ### Retry/backoff helper lemmas -------------------------------------------

/-- The sleeps a run of retryable failures produces: `t, 2t, 4t, ...`. -/
def geomList (t : Nat) : Nat → List Nat
  | 0 => []
  | n + 1 => t :: geomList (t * BACKOFF_SCALE) n

theorem geomList_eq_map_range (k : Nat) :
    ∀ t, geomList t k = (List.range k).map (fun i => t * 2 ^ i) := by
  induction k with
  | zero => intro t; rfl
  | succ k ih =>
    intro t
    rw [geomList, ih, List.range_succ_eq_map]
    simp only [List.map_cons, List.map_map, BACKOFF_SCALE]
    refine List.cons_eq_cons.mpr ⟨by omega, ?_⟩
    apply List.map_congr_left
    intro i _
    simp only [Function.comp_apply, pow_succ]
    ring

theorem retryAux_skip (go : Nat → Except GithubError α) (k : Nat) :
    ∀ a remaining t acc, k ≤ remaining →
      (∀ i, i < k → ∃ s, go (a + i) = .error (.githubService s)) →
      retryAux go a remaining t acc
        = retryAux go (a + k) (remaining - k) (t * 2 ^ k) ((geomList t k).reverse ++ acc) := by
  induction k with
  | zero => intro a remaining t acc _ _; simp [geomList]
  | succ k ih =>
    intro a remaining t acc hk h
    obtain ⟨rem, rfl⟩ : ∃ rem, remaining = rem + 1 := ⟨remaining - 1, by omega⟩
    obtain ⟨s, hs⟩ := h 0 (by omega)
    rw [show a + 0 = a by omega] at hs
    rw [retryAux, hs]
    simp only [GithubError.should_backoff, if_pos]
    rw [ih (a + 1) rem (t * BACKOFF_SCALE) (t :: acc) (by omega)
      (fun i hi => by
        obtain ⟨s', hs'⟩ := h (i + 1) (by omega)
        exact ⟨s', by rw [show a + 1 + i = a + (i + 1) by omega]; exact hs'⟩)]
    have h1 : a + 1 + k = a + (k + 1) := by omega
    have h2 : rem - k = rem + 1 - (k + 1) := by omega
    have h3 : t * BACKOFF_SCALE * 2 ^ k = t * 2 ^ (k + 1) := by
      simp [BACKOFF_SCALE, pow_succ]; ring
    have h4 : (geomList (t * BACKOFF_SCALE) k).reverse ++ (t :: acc)
        = (geomList t (k + 1)).reverse ++ acc := by
      rw [geomList]
      simp
    rw [h1, h2, h3, h4]

-- ### Backend call-loop lemmas ----------------------------------------------

theorem runGithubCalls_steady (now : TimeC) (uidS : Nat → String) (e : GithubError) :
    ∀ n, runGithubCalls now uidS n ⟨.error e, true, true⟩
      = (⟨.error e, true, true⟩, 0, 0,
          List.replicate n (.err (.serviceError "github"))) := by
  intro n
  induction n with
  | zero => rfl
  | succ n ih =>
    rw [runGithubCalls, GithubQuery.fetch_items]
    simp only [if_pos rfl]
    rw [ih]
    rfl

theorem runGitlabCalls_fail (now : TimeC) (uidS : Nat → String) (msg : String) :
    ∀ n, runGitlabCalls now uidS n ⟨.error msg⟩
      = (n, List.replicate n (.err (.serviceError "gitlab"))) := by
  intro n
  induction n with
  | zero => rfl
  | succ n ih =>
    rw [runGitlabCalls, GitlabQuery.fetch_items]
    rw [ih]
    simp [List.replicate_succ]
    omega

-- ### Claim theorems ---------------------------------------------------------

/-- C1: In the merge step of `fetch_items`, every remote item whose url is a
key of `existing_items` receives compare-and-set updates in place (`due`
only when the remote supplies one; the final value is the setter chain
`applyRemote` folded over the matching remote items) and contributes no new
item, while every remote item whose url is absent from `existing_items`
contributes exactly one new `TodoItem` built with the next freshly
generated uid, `created` = now, and all remote fields copied
(`newItemsSpec` states this construction in the claim's words). -/
theorem C1_merge_matched_updates_unmatched_emits
    (now : TimeC) (uidS : Nat → String) (rs : List RemoteItem)
    (m : ItemLookup) (fresh : Nat) :
    (mergeItems now uidS rs m fresh).1 = newItemsSpec now uidS rs m fresh
    ∧ (∀ u, lookupItem (mergeItems now uidS rs m fresh).2 u
        = (lookupItem m u).map (fun item =>
            (rs.filter (fun r => r.url == u)).foldl
              (fun it r => applyRemote now r it) item))
    ∧ (∀ (r : RemoteItem) (item : TodoItem),
        (applyRemote now { r with due := none } item).due = item.due) :=
  ⟨mergeItems_fst now uidS rs m fresh,
   fun u => mergeItems_snd now uidS rs m fresh u,
   fun r item => applyRemote_due_none now r item⟩

/-- C2: encoding a `TodoItem` (`vtodo`, which delegates to
`update_component`) and then decoding the produced component
(`from_component`) yields an item with the same uid, kind, status, url,
summary, description and due, preserving the date versus date-time
granularity of due exactly.  The `Valid` hypotheses say the chrono fields
fit the fixed-width patterns, which holds for every real chrono value. -/
theorem C2_encode_decode_roundtrip (item : TodoItem) (encNow decNow : TimeC)
    (hEnc : encNow.Valid) (hLM : item.last_modified.Valid)
    (hDue : ∀ d, item.due = some d → d.Valid) :
    (TodoItem.from_component (item.vtodo encNow) decNow).map
      (fun d => (d.uid, d.kind, d.status, d.url, d.summary, d.description, d.due))
    = some (item.uid, item.kind, item.status, item.url, item.summary,
        item.description, item.due) :=
  from_component_vtodo item encNow decNow hEnc hLM hDue

theorem C2_encode_decode_roundtrip_witness :
    (⟨2024, 3, 4, 5, 6, 7⟩ : TimeC).Valid
    ∧ (⟨2024, 2, 3, 4, 5, 6⟩ : TimeC).Valid
    ∧ (Due.date ⟨2025, 6, 7⟩).Valid
    ∧ (TodoItem.from_component
        (TodoItem.vtodo
          ⟨"uid-1", .pullRequest, ⟨2024, 1, 2, 3, 4, 5⟩, some (.date ⟨2025, 6, 7⟩),
            .inProcess, "https://example/1", "sum", "desc",
            ⟨2024, 2, 3, 4, 5, 6⟩, false⟩
          ⟨2024, 3, 4, 5, 6, 7⟩) ⟨2020, 1, 1, 1, 1, 1⟩).map
        (fun d => (d.uid, d.kind, d.status, d.url, d.summary, d.description, d.due))
      = some ("uid-1", .pullRequest, .inProcess, "https://example/1", "sum", "desc",
          some (.date ⟨2025, 6, 7⟩)) :=
  ⟨by decide, by decide, by decide,
   C2_encode_decode_roundtrip _ _ _ (by decide) (by decide)
     (fun d hd => (Option.some.inj hd) ▸ (by decide : (Due.date ⟨2025, 6, 7⟩).Valid))⟩

/-- C3: every query send runs under `retry_with_backoff`: a transport that
fails with the retryable service-unavailable error on all 5 attempts sleeps
1, 2, 4, 8, 16 units and ends with the distinct backoff-exhausted error
(never the service error itself); a non-retryable error on attempt k aborts
right after that attempt with no further sleep; a success on attempt k
returns immediately. -/
theorem C3_transport_retry_policy {α : Type} (go : Nat → Except GithubError α) :
    ((∀ i, i < 5 → ∃ s, go i = .error (.githubService s)) →
      retry_with_backoff go = ⟨.error .githubBackoff, 5, [1, 2, 4, 8, 16]⟩)
    ∧ (∀ s, GithubError.githubBackoff ≠ GithubError.githubService s)
    ∧ (∀ k, k < 5 → (∀ i, i < k → ∃ s, go i = .error (.githubService s)) →
        ∀ e, go k = .error e → e.should_backoff = false →
          retry_with_backoff go
            = ⟨.error e, k + 1, (List.range k).map (fun i => 2 ^ i)⟩)
    ∧ (∀ k, k < 5 → (∀ i, i < k → ∃ s, go i = .error (.githubService s)) →
        ∀ r, go k = .ok r →
          retry_with_backoff go
            = ⟨.ok r, k + 1, (List.range k).map (fun i => 2 ^ i)⟩) := by
  refine ⟨?_, ?_, ?_, ?_⟩
  · intro h
    have hs := retryAux_skip go 5 0 5 1 [] (le_refl 5)
      (fun i hi => by simpa using h i (by omega))
    show retryAux go 0 5 1 [] = _
    rw [hs]
    norm_num
    rw [retryAux]
    simp only [List.append_nil, List.reverse_reverse]
    rfl
  · intro s h
    exact GithubError.noConfusion h
  · intro k hk hpre e hke hnb
    have hs := retryAux_skip go k 0 5 1 [] (by omega)
      (fun i hi => by simpa using hpre i hi)
    show retryAux go 0 5 1 [] = _
    rw [hs]
    obtain ⟨rem, hrem⟩ : ∃ rem, 5 - k = rem + 1 := ⟨5 - k - 1, by omega⟩
    rw [hrem, show (0 + k) = k from by omega, retryAux, hke]
    simp only [hnb, Bool.false_eq_true, if_neg, List.append_nil,
      List.reverse_reverse]
    rw [geomList_eq_map_range]
    simp
  · intro k hk hpre r hkr
    have hs := retryAux_skip go k 0 5 1 [] (by omega)
      (fun i hi => by simpa using hpre i hi)
    show retryAux go 0 5 1 [] = _
    rw [hs]
    obtain ⟨rem, hrem⟩ : ∃ rem, 5 - k = rem + 1 := ⟨5 - k - 1, by omega⟩
    rw [hrem, show (0 + k) = k from by omega, retryAux, hkr]
    simp only [List.append_nil, List.reverse_reverse]
    rw [geomList_eq_map_range]
    simp

theorem C3_transport_retry_policy_witness :
    retry_with_backoff (fun _ => (.error (.githubService 503) : Except GithubError Nat))
      = ⟨.error .githubBackoff, 5, [1, 2, 4, 8, 16]⟩
    ∧ retry_with_backoff (fun _ => (.error (.github "bad request") : Except GithubError Nat))
      = ⟨.error (.github "bad request"), 1, []⟩
    ∧ retry_with_backoff (fun _ => (.ok 42 : Except GithubError Nat))
      = ⟨.ok 42, 1, []⟩ :=
  ⟨(C3_transport_retry_policy _).1 (fun i _ => ⟨503, rfl⟩),
   (C3_transport_retry_policy _).2.2.1 0 (by omega)
     (fun i hi => absurd hi (by omega)) _ rfl rfl,
   (C3_transport_retry_policy _).2.2.2 0 (by omega)
     (fun i hi => absurd hi (by omega)) _ rfl⟩

/-- An outcome that is an ordinary return (items or an `ItemError`), as the
claim describes, rather than a panic. -/
def isFetchReturn {α : Type} : FetchOutcome α → Bool
  | .ok _ => true
  | .err _ => true
  | .panicked _ => false

/-- C4 counterexample: for a Projects target the GitHub backend neither
returns items nor an `ItemError` — `query_projects` is `unimplemented!()`,
so the call panics. -/
theorem C4_projects_cex :
    isFetchReturn ((GithubQuery.new (.ok ())).fetch_items (.projects ["owner/repo"])
      (.ok []) ⟨2024, 1, 1, 0, 0, 0⟩ (fun _ => "uid") []).outcome = false := by
  rfl

/-- C4 amended: with a successfully constructed client, a Projects target
always reaches `query_projects = unimplemented!()` and panics instead of
issuing the scoped queries. -/
theorem C4_projects_unimplemented_panics (q : GithubQuery) (ps : List String)
    (queryUser : Except ItemError (List RemoteItem)) (now : TimeC)
    (uidS : Nat → String) (m : ItemLookup) (h : q.connResult = .ok ()) :
    (q.fetch_items (.projects ps) queryUser now uidS m).outcome
      = .panicked "not implemented" := by
  obtain ⟨cr, forced, logged⟩ := q
  simp only at h
  subst h
  rfl

theorem C4_projects_unimplemented_panics_witness :
    (GithubQuery.new (.ok ())).connResult = .ok ()
    ∧ ((GithubQuery.new (.ok ())).fetch_items (.projects ["owner/repo"]) (.ok [])
        ⟨2024, 1, 1, 0, 0, 0⟩ (fun _ => "uid") []).outcome
      = .panicked "not implemented" :=
  ⟨rfl, C4_projects_unimplemented_panics _ _ _ _ _ _ rfl⟩

/-- C5: in a pagination loop, a response that signals another page but omits
the continuation cursor ends the loop at once — one single request was
made, and the result is the same for every remaining fuel, i.e. the loop
neither sends again nor spins; a response without a next page ends the loop
normally after its one request; a response with a next page and a cursor
continues the loop threading exactly that cursor. -/
theorem C5_pagination_hard_stop {α : Type}
    (send : Option String → Except ItemError (PageRsp α))
    (cursor : Option String) (acc : List α) (fuel : Nat) (h : 0 < fuel) :
    (∀ rsp, send cursor = .ok rsp → rsp.pageInfo.hasNextPage = true →
        rsp.pageInfo.endCursor = none →
        queryPages send fuel cursor acc = ⟨.panicked, 1⟩)
    ∧ (∀ rsp, send cursor = .ok rsp → rsp.pageInfo.hasNextPage = false →
        queryPages send fuel cursor acc = ⟨.ok (acc ++ rsp.items), 1⟩)
    ∧ (∀ rsp c, send cursor = .ok rsp → rsp.pageInfo.hasNextPage = true →
        rsp.pageInfo.endCursor = some c →
        queryPages send fuel cursor acc
          = ⟨(queryPages send (fuel - 1) (some c) (acc ++ rsp.items)).ending,
             1 + (queryPages send (fuel - 1) (some c) (acc ++ rsp.items)).sends⟩) := by
  obtain ⟨f, rfl⟩ : ∃ f, fuel = f + 1 := ⟨fuel - 1, by omega⟩
  refine ⟨?_, ?_, ?_⟩
  · intro rsp hsend hnext hcur
    rw [queryPages, hsend]
    simp [hnext, hcur]
  · intro rsp hsend hnext
    rw [queryPages, hsend]
    simp [hnext]
  · intro rsp c hsend hnext hcur
    rw [queryPages, hsend]
    simp [hnext, hcur]

theorem C5_pagination_hard_stop_witness :
    (0 : Nat) < 3
    ∧ queryPages (fun _ => .ok (⟨[0], ⟨true, none⟩⟩ : PageRsp Nat)) 3 none []
      = ⟨.panicked, 1⟩ :=
  ⟨by omega,
   (C5_pagination_hard_stop (fun _ => .ok (⟨[0], ⟨true, none⟩⟩ : PageRsp Nat))
     none [] 3 (by omega)).1 _ rfl rfl rfl⟩

/-- C6 counterexample: run the merge twice over the same `existing_items`
with the identical single remote item; `fetch_items` does not insert the
item it returned, so the second run again produces a new item rather than
zero. -/
theorem C6_rerun_not_idempotent_cex :
    (mergeItems ⟨2024, 1, 1, 0, 0, 0⟩ (fun _ => "uid")
        [⟨none, "s", "d", .issue, .needsAction, "https://x/1"⟩]
        (mergeItems ⟨2024, 1, 1, 0, 0, 0⟩ (fun _ => "uid")
          [⟨none, "s", "d", .issue, .needsAction, "https://x/1"⟩] [] 0).2 0).1
      ≠ [] := by
  decide

/-- C6 amended: the merge is idempotent once the caller has added the first
run's newly created items to `existing_items` (which `fetch_items` itself
does not do): the second run with identical remote data produces zero new
items; any existing item all of whose matching remote updates are no-ops
survives a run unchanged, so its dirty flag stays false; and each setter is
a no-op on an unchanged value (`set_description` compares the remote value
with carriage returns stripped). -/
theorem C6_merge_idempotent_after_insert :
    (∀ (now now2 : TimeC) (uidS uidS2 : Nat → String) (fresh fresh2 : Nat)
        (rs : List RemoteItem) (m : ItemLookup),
      (mergeItems now2 uidS2 rs
        (insertNewItems (mergeItems now uidS rs m fresh).1
          (mergeItems now uidS rs m fresh).2) fresh2).1 = [])
    ∧ (∀ (now : TimeC) (uidS : Nat → String) (fresh : Nat) (rs : List RemoteItem)
        (m : ItemLookup) (u : String) (item : TodoItem),
        lookupItem m u = some item →
        (∀ r ∈ rs, r.url = u → applyRemote now r item = item) →
        lookupItem (mergeItems now uidS rs m fresh).2 u = some item)
    ∧ (∀ (now : TimeC) (item : TodoItem) (d : Due), item.due = some d →
        item.set_due now d = item)
    ∧ (∀ (now : TimeC) (item : TodoItem), item.set_status now item.status = item)
    ∧ (∀ (now : TimeC) (item : TodoItem), item.set_summary now item.summary = item)
    ∧ (∀ (now : TimeC) (item : TodoItem) (v : String), stripCR v = item.description →
        item.set_description now v = item) := by
  refine ⟨?_, ?_, ?_, ?_, ?_, ?_⟩
  · intro now now2 uidS uidS2 fresh fresh2 rs m
    rw [mergeItems_fst]
    apply newItemsSpec_all_matched
    intro r hr
    rw [insertNewItems, lookupItem_append]
    cases hs : lookupItem m r.url with
    | some item0 =>
      have h2 : lookupItem (mergeItems now uidS rs m fresh).2 r.url
          = some ((rs.filter (fun r' => r'.url == r.url)).foldl
              (fun it r' => applyRemote now r' it) item0) := by
        rw [mergeItems_snd, hs]
        rfl
      rw [h2]
      rfl
    | none =>
      have h2 : lookupItem (mergeItems now uidS rs m fresh).2 r.url = none := by
        rw [mergeItems_snd, hs]
        rfl
      rw [h2]
      have hcov := newItemsSpec_covers now uidS rs m fresh r hr (by rw [hs]; rfl)
      rw [← mergeItems_fst] at hcov
      exact lookupItem_map_pair_isSome _ _ hcov
  · intro now uidS fresh rs m u item hlook hfix
    exact mergeItems_preserves_unchanged now uidS rs m fresh u item hlook hfix
  · intro now item d h
    exact set_due_same item now d h
  · intro now item
    exact set_status_same item now
  · intro now item
    exact set_summary_same item now
  · intro now item v h
    exact set_description_same item now v h

theorem C6_merge_idempotent_after_insert_witness :
    lookupItem [("https://x/1",
        (⟨"u0", .issue, ⟨2024, 1, 1, 0, 0, 0⟩, none, .needsAction, "https://x/1",
          "s", "d", ⟨2024, 1, 1, 0, 0, 0⟩, false⟩ : TodoItem))] "https://x/1"
      = some ⟨"u0", .issue, ⟨2024, 1, 1, 0, 0, 0⟩, none, .needsAction, "https://x/1",
          "s", "d", ⟨2024, 1, 1, 0, 0, 0⟩, false⟩
    ∧ lookupItem (mergeItems ⟨2024, 2, 2, 0, 0, 0⟩ (fun _ => "uid") []
        [("https://x/1",
          (⟨"u0", .issue, ⟨2024, 1, 1, 0, 0, 0⟩, none, .needsAction, "https://x/1",
            "s", "d", ⟨2024, 1, 1, 0, 0, 0⟩, false⟩ : TodoItem))] 0).2 "https://x/1"
      = some ⟨"u0", .issue, ⟨2024, 1, 1, 0, 0, 0⟩, none, .needsAction, "https://x/1",
          "s", "d", ⟨2024, 1, 1, 0, 0, 0⟩, false⟩ :=
  ⟨by decide,
   C6_merge_idempotent_after_insert.2.1 ⟨2024, 2, 2, 0, 0, 0⟩ (fun _ => "uid") 0 []
     _ "https://x/1" _ (by decide) (fun r hr => absurd hr (by simp))⟩

/-- Following the claim's words: the first category token, in the order the
tokens appear in the CATEGORIES value, that names a known kind. -/
def kindByTokenOrder (tokens : List String) : Option TodoKind :=
  tokens.findSome? (fun tok => ALL_TODO_KINDS.find? (fun kind => kind.category == tok))

/-- C7 counterexample: with CATEGORIES "pull-request,issue" the decoder
returns Issue (the first kind in `ALL_TODO_KINDS` order present among the
tokens), while the claim's token-order rule would pick PullRequest. -/
theorem C7_first_token_cex :
    ((TodoItem.from_component
        ⟨"VTODO",
          [("UID", ["u1"]), ("CATEGORIES", ["pull-request,issue"]),
           ("DTSTAMP", ["20240101T000000Z"]), ("STATUS", ["NEEDS-ACTION"]),
           ("URL", ["https://x"]), ("SUMMARY", ["s"]), ("DESCRIPTION", ["d"]),
           ("LAST-MODIFIED", ["20240102T000000Z"])]⟩
        ⟨2020, 1, 1, 0, 0, 0⟩).map (fun it => it.kind) = some TodoKind.issue)
    ∧ kindByTokenOrder (splitComma "pull-request,issue") = some TodoKind.pullRequest :=
  ⟨by decide, by decide⟩

/-- Whenever `from_component` succeeds, the decoded kind is the first kind
in `ALL_TODO_KINDS` order whose category token occurs among the CATEGORIES
tokens. -/
theorem from_component_kind_inversion (c : Component) (now : TimeC) :
    ∀ item, TodoItem.from_component c now = some item →
      ∃ catVal, c.get_only "CATEGORIES" = some catVal
        ∧ ALL_TODO_KINDS.find? (fun kind =>
            (splitComma catVal).contains kind.category) = some item.kind := by
  intro item h
  rw [TodoItem.from_component] at h
  obtain ⟨uid, h1, h⟩ := Option.bind_eq_some.mp h
  obtain ⟨catVal, h2, h⟩ := Option.bind_eq_some.mp h
  obtain ⟨kind, h3, h⟩ := Option.bind_eq_some.mp h
  refine ⟨catVal, h2, ?_⟩
  obtain ⟨dtstamp, h4, h⟩ := Option.bind_eq_some.mp h
  obtain ⟨created, h5, h⟩ := Option.bind_eq_some.mp h
  cases hdue : c.get_only "DUE" with
  | none =>
    rw [hdue] at h
    obtain ⟨due, hdv, h⟩ := Option.bind_eq_some.mp h
    obtain ⟨statusValue, h7, h⟩ := Option.bind_eq_some.mp h
    obtain ⟨status, h8, h⟩ := Option.bind_eq_some.mp h
    obtain ⟨url, h9, h⟩ := Option.bind_eq_some.mp h
    obtain ⟨summary, h10, h⟩ := Option.bind_eq_some.mp h
    obtain ⟨description, h11, h⟩ := Option.bind_eq_some.mp h
    cases hlm : c.get_only "LAST-MODIFIED" with
    | none =>
      rw [hlm] at h
      obtain ⟨lmu, hlv, h⟩ := Option.bind_eq_some.mp h
      rw [← Option.some.inj h]
      exact h3
    | some lmVal =>
      rw [hlm] at h
      obtain ⟨lmu, hlv, h⟩ := Option.bind_eq_some.mp h
      rw [← Option.some.inj h]
      exact h3
  | some dueVal =>
    rw [hdue] at h
    obtain ⟨due, hdv, h⟩ := Option.bind_eq_some.mp h
    obtain ⟨statusValue, h7, h⟩ := Option.bind_eq_some.mp h
    obtain ⟨status, h8, h⟩ := Option.bind_eq_some.mp h
    obtain ⟨url, h9, h⟩ := Option.bind_eq_some.mp h
    obtain ⟨summary, h10, h⟩ := Option.bind_eq_some.mp h
    obtain ⟨description, h11, h⟩ := Option.bind_eq_some.mp h
    cases hlm : c.get_only "LAST-MODIFIED" with
    | none =>
      rw [hlm] at h
      obtain ⟨lmu, hlv, h⟩ := Option.bind_eq_some.mp h
      rw [← Option.some.inj h]
      exact h3
    | some lmVal =>
      rw [hlm] at h
      obtain ⟨lmu, hlv, h⟩ := Option.bind_eq_some.mp h
      rw [← Option.some.inj h]
      exact h3

/-- C7 amended: the decoded kind is the first kind in the fixed order of
`ALL_TODO_KINDS` (Issue, AssignedIssue, PullRequest, AssignedPullRequest,
Todo) whose category token occurs anywhere among the CATEGORIES tokens —
not the first matching token in token order; when no token names a known
kind, the decode fails. -/
theorem C7_kind_by_fixed_kind_order (c : Component) (now : TimeC) :
    (∀ item, TodoItem.from_component c now = some item →
      ∃ catVal, c.get_only "CATEGORIES" = some catVal
        ∧ ALL_TODO_KINDS.find? (fun kind =>
            (splitComma catVal).contains kind.category) = some item.kind)
    ∧ (∀ catVal, c.get_only "CATEGORIES" = some catVal →
        ALL_TODO_KINDS.find? (fun kind =>
          (splitComma catVal).contains kind.category) = none →
        TodoItem.from_component c now = none) := by
  refine ⟨from_component_kind_inversion c now, ?_⟩
  intro catVal h2 hnone
  cases hfc : TodoItem.from_component c now with
  | none => rfl
  | some item =>
    exfalso
    obtain ⟨catVal', h2', h3'⟩ := from_component_kind_inversion c now item hfc
    rw [h2] at h2'
    cases Option.some.inj h2'
    rw [hnone] at h3'
    exact Option.noConfusion h3'

theorem C7_kind_by_fixed_kind_order_witness :
    (TodoItem.from_component
        (⟨"VTODO",
          [("UID", ["u1"]), ("CATEGORIES", ["pull-request,issue"]),
           ("DTSTAMP", ["20240101T000000Z"]), ("STATUS", ["NEEDS-ACTION"]),
           ("URL", ["https://x"]), ("SUMMARY", ["s"]), ("DESCRIPTION", ["d"]),
           ("LAST-MODIFIED", ["20240102T000000Z"])]⟩ : Component)
        ⟨2020, 1, 1, 0, 0, 0⟩
      = some ⟨"u1", .issue, ⟨2024, 1, 1, 0, 0, 0⟩, none, .needsAction, "https://x",
          "s", "d", ⟨2024, 1, 2, 0, 0, 0⟩, false⟩)
    ∧ ∃ catVal,
        (⟨"VTODO",
          [("UID", ["u1"]), ("CATEGORIES", ["pull-request,issue"]),
           ("DTSTAMP", ["20240101T000000Z"]), ("STATUS", ["NEEDS-ACTION"]),
           ("URL", ["https://x"]), ("SUMMARY", ["s"]), ("DESCRIPTION", ["d"]),
           ("LAST-MODIFIED", ["20240102T000000Z"])]⟩ : Component).get_only
            "CATEGORIES" = some catVal
        ∧ ALL_TODO_KINDS.find? (fun kind =>
            (splitComma catVal).contains kind.category)
          = some (⟨"u1", .issue, ⟨2024, 1, 1, 0, 0, 0⟩, none, .needsAction,
              "https://x", "s", "d", ⟨2024, 1, 2, 0, 0, 0⟩, false⟩ : TodoItem).kind :=
  ⟨by decide,
   (C7_kind_by_fixed_kind_order _ ⟨2020, 1, 1, 0, 0, 0⟩).1 _ (by decide)⟩

/-- C8 counterexample: a GitLab issue with its own `due_date` and no
milestone gets that due date, while the claim says the due date should be
absent whenever there is no milestone. -/
theorem C8_gitlab_issue_due_cex :
    (GitlabItem.ofIssue
        ⟨"t", none, "opened", "https://g/1", [], some ⟨2024, 5, 6⟩, none⟩).due
      ≠ none := by
  decide

/-- C8 amended: on GitHub (issues and pull requests) and for GitLab merge
requests, the derived due date is the milestone's due date when present and
absent otherwise; for GitLab issues the issue's own `due_date` takes
precedence and yields a due date even without a milestone, with the
milestone's due date only as a fallback. -/
theorem C8_due_from_milestone_except_gitlab_issue :
    (∀ (i : GithubIssue) (m : GithubMilestone) (t : TimeC),
        i.milestone = some m → m.due_on = some t →
        (GithubItem.ofIssue i).due = some (.dateTime t))
    ∧ (∀ i : GithubIssue, i.milestone.bind (fun m => m.due_on) = none →
        (GithubItem.ofIssue i).due = none)
    ∧ (∀ (pr : GithubPullRequest) (m : GithubMilestone) (t : TimeC),
        pr.milestone = some m → m.due_on = some t →
        (GithubItem.ofPullRequest pr).due = some (.dateTime t))
    ∧ (∀ pr : GithubPullRequest, pr.milestone.bind (fun m => m.due_on) = none →
        (GithubItem.ofPullRequest pr).due = none)
    ∧ (∀ (mr : GitlabMergeRequest) (m : GitlabMilestone) (d : DateC),
        mr.milestone = some m → m.due_date = some d →
        (GitlabItem.ofMergeRequest mr).due = some (.date d))
    ∧ (∀ mr : GitlabMergeRequest, mr.milestone.bind (fun m => m.due_date) = none →
        (GitlabItem.ofMergeRequest mr).due = none)
    ∧ (∀ (i : GitlabIssue) (d : DateC), i.due_date = some d →
        (GitlabItem.ofIssue i).due = some (.date d))
    ∧ (∀ (i : GitlabIssue) (m : GitlabMilestone) (d : DateC),
        i.due_date = none → i.milestone = some m → m.due_date = some d →
        (GitlabItem.ofIssue i).due = some (.date d))
    ∧ (∀ i : GitlabIssue, i.due_date = none →
        i.milestone.bind (fun m => m.due_date) = none →
        (GitlabItem.ofIssue i).due = none) := by
  refine ⟨?_, ?_, ?_, ?_, ?_, ?_, ?_, ?_, ?_⟩
  · intro i m t hm ht
    simp [GithubItem.ofIssue, hm, ht]
  · intro i hnone
    simp [GithubItem.ofIssue, hnone]
  · intro pr m t hm ht
    simp [GithubItem.ofPullRequest, hm, ht]
  · intro pr hnone
    simp [GithubItem.ofPullRequest, hnone]
  · intro mr m d hm hd
    simp [GitlabItem.ofMergeRequest, hm, hd]
  · intro mr hnone
    simp [GitlabItem.ofMergeRequest, hnone]
  · intro i d hd
    simp [GitlabItem.ofIssue, hd]
  · intro i m d hdn hm hd
    simp [GitlabItem.ofIssue, hdn, hm, hd]
  · intro i hdn hnone
    simp [GitlabItem.ofIssue, hdn, hnone]

theorem C8_due_from_milestone_except_gitlab_issue_witness :
    (GithubItem.ofIssue
        ⟨some ⟨some ⟨2024, 6, 1, 12, 0, 0⟩⟩, .OPEN, ⟨some []⟩, "t", "b",
          "https://gh/1"⟩).due
      = some (.dateTime ⟨2024, 6, 1, 12, 0, 0⟩)
    ∧ (GitlabItem.ofIssue
        ⟨"t", none, "opened", "https://g/2", [], some ⟨2024, 5, 6⟩, none⟩).due
      = some (.date ⟨2024, 5, 6⟩) :=
  ⟨C8_due_from_milestone_except_gitlab_issue.1 _ _ _ rfl rfl,
   C8_due_from_milestone_except_gitlab_issue.2.2.2.2.2.2.1 _ _ rfl⟩

/-- C9 counterexample: two `fetch_items` calls on one GitLab backend whose
client construction failed emit the connection-failure log twice, not once
per backend instance. -/
theorem C9_gitlab_relogs_cex :
    (runGitlabCalls ⟨2024, 1, 1, 0, 0, 0⟩ (fun _ => "uid") 2
        ⟨.error "connection refused"⟩).1 = 2 := by
  rfl

/-- C9 amended: a backend whose client construction failed returns
`ServiceError` on every `fetch_items` call without re-running the
construction; the GitHub backend (OnceCell) emits the connection-failure
log exactly once per instance across all calls, but the GitLab backend
re-logs it on every failing call. -/
theorem C9_connection_failure_logging (now : TimeC) (uidS : Nat → String)
    (e : GithubError) (msg : String) (n : Nat) (h : 1 ≤ n) :
    (runGithubCalls now uidS n (GithubQuery.new (.error e))).2.1 = 1
    ∧ (runGithubCalls now uidS n (GithubQuery.new (.error e))).2.2.1 = 1
    ∧ (runGithubCalls now uidS n (GithubQuery.new (.error e))).2.2.2
        = List.replicate n (.err (.serviceError "github"))
    ∧ (runGitlabCalls now uidS n ⟨.error msg⟩).1 = n
    ∧ (runGitlabCalls now uidS n ⟨.error msg⟩).2
        = List.replicate n (.err (.serviceError "gitlab")) := by
  obtain ⟨m, rfl⟩ : ∃ m, n = m + 1 := ⟨n - 1, by omega⟩
  have hG : runGithubCalls now uidS (m + 1) (GithubQuery.new (.error e))
      = (⟨.error e, true, true⟩, 1, 1,
         List.replicate (m + 1) (.err (.serviceError "github"))) := by
    rw [runGithubCalls]
    simp only [GithubQuery.new, GithubQuery.fetch_items]
    rw [runGithubCalls_steady]
    simp [List.replicate_succ]
  have hL := runGitlabCalls_fail now uidS msg (m + 1)
  exact ⟨by rw [hG], by rw [hG], by rw [hG], by rw [hL], by rw [hL]⟩

theorem C9_connection_failure_logging_witness :
    (1 : Nat) ≤ 2
    ∧ (runGithubCalls ⟨2024, 1, 1, 0, 0, 0⟩ (fun _ => "uid") 2
        (GithubQuery.new (.error .urlParse))).2.1 = 1
    ∧ (runGitlabCalls ⟨2024, 1, 1, 0, 0, 0⟩ (fun _ => "uid") 2
        ⟨.error "connect"⟩).1 = 2 :=
  ⟨by omega,
   (C9_connection_failure_logging ⟨2024, 1, 1, 0, 0, 0⟩ (fun _ => "uid")
     .urlParse "connect" 2 (by omega)).1,
   (C9_connection_failure_logging ⟨2024, 1, 1, 0, 0, 0⟩ (fun _ => "uid")
     .urlParse "connect" 2 (by omega)).2.2.2.1⟩

/-- C10: `TodoFile::write` runs `sync` first, which clears the dirty flag
and re-renders the component before any filesystem write; even when the
filesystem write fails the flag is already false, so a second `write` with
no further changes performs no filesystem write and returns Ok; when the
flag is false, `write` performs no filesystem write and returns Ok. -/
theorem C10_write_clears_dirty_before_fs_write (f : TodoFile)
    (fsW fsW2 : Except String Unit)
    (hOurs : (TodoFile.extract_component f.component).isSome = true) :
    (f.item.updated = true →
      ∀ msg, ∃ f', f.write (.error msg)
          = some (f', true, .error (.writeFile f'.path msg))
        ∧ f'.item.updated = false
        ∧ f'.write fsW2 = some (f', false, .ok ()))
    ∧ (f.item.updated = true →
      ∃ f', f.write (.ok ()) = some (f', true, .ok ())
        ∧ f'.item.updated = false
        ∧ f'.write fsW2 = some (f', false, .ok ()))
    ∧ (f.item.updated = false → f.write fsW = some (f, false, .ok ())) := by
  cases hex : TodoFile.extract_component f.component with
  | none => rw [hex] at hOurs; simp at hOurs
  | some vtodo =>
  refine ⟨?_, ?_, ?_⟩
  · intro hup msg
    refine ⟨⟨f.path, { f.component with subcomponents := [f.item.update_component vtodo] },
      { f.item with updated := false }⟩, ?_, rfl, ?_⟩
    · have hsync : f.sync = some (⟨f.path,
          { f.component with subcomponents := [f.item.update_component vtodo] },
          { f.item with updated := false }⟩, .yes) := by
        rw [TodoFile.sync]
        simp [hup, hex]
      rw [TodoFile.write, hsync]
    · have hsync2 : TodoFile.sync ⟨f.path,
          { f.component with subcomponents := [f.item.update_component vtodo] },
          { f.item with updated := false }⟩
          = some (⟨f.path,
              { f.component with subcomponents := [f.item.update_component vtodo] },
              { f.item with updated := false }⟩, .no) := by
        rw [TodoFile.sync]
        simp
      rw [TodoFile.write, hsync2]
  · intro hup
    refine ⟨⟨f.path, { f.component with subcomponents := [f.item.update_component vtodo] },
      { f.item with updated := false }⟩, ?_, rfl, ?_⟩
    · have hsync : f.sync = some (⟨f.path,
          { f.component with subcomponents := [f.item.update_component vtodo] },
          { f.item with updated := false }⟩, .yes) := by
        rw [TodoFile.sync]
        simp [hup, hex]
      rw [TodoFile.write, hsync]
    · have hsync2 : TodoFile.sync ⟨f.path,
          { f.component with subcomponents := [f.item.update_component vtodo] },
          { f.item with updated := false }⟩
          = some (⟨f.path,
              { f.component with subcomponents := [f.item.update_component vtodo] },
              { f.item with updated := false }⟩, .no) := by
        rw [TodoFile.sync]
        simp
      rw [TodoFile.write, hsync2]
  · intro hup
    have hsync : f.sync = some (f, .no) := by
      rw [TodoFile.sync]
      simp [hup]
    rw [TodoFile.write, hsync]

theorem C10_write_clears_dirty_before_fs_write_witness :
    (TodoFile.extract_component
        ⟨[("PRODID", ["-//IDN benboeckel.net//devtodo/0.1.0 vobject//EN"])],
         [⟨"VTODO", []⟩]⟩).isSome = true
    ∧ (⟨"p.ics",
        ⟨[("PRODID", ["-//IDN benboeckel.net//devtodo/0.1.0 vobject//EN"])],
         [⟨"VTODO", []⟩]⟩,
        ⟨"u0", .issue, ⟨2024, 1, 1, 0, 0, 0⟩, none, .needsAction, "https://x",
          "s", "d", ⟨2024, 1, 1, 0, 0, 0⟩, false⟩⟩ : TodoFile).item.updated = false
    ∧ TodoFile.write
        ⟨"p.ics",
         ⟨[("PRODID", ["-//IDN benboeckel.net//devtodo/0.1.0 vobject//EN"])],
          [⟨"VTODO", []⟩]⟩,
         ⟨"u0", .issue, ⟨2024, 1, 1, 0, 0, 0⟩, none, .needsAction, "https://x",
           "s", "d", ⟨2024, 1, 1, 0, 0, 0⟩, false⟩⟩ (.ok ())
      = some (⟨"p.ics",
          ⟨[("PRODID", ["-//IDN benboeckel.net//devtodo/0.1.0 vobject//EN"])],
           [⟨"VTODO", []⟩]⟩,
          ⟨"u0", .issue, ⟨2024, 1, 1, 0, 0, 0⟩, none, .needsAction, "https://x",
            "s", "d", ⟨2024, 1, 1, 0, 0, 0⟩, false⟩⟩, false, .ok ()) :=
  ⟨by decide, rfl,
   (C10_write_clears_dirty_before_fs_write _ (.ok ()) (.ok ()) (by decide)).2.2 rfl⟩
